import Mathlib

/-!
# Verification of the ChatBGP RFC 9003 shutdown-message codec

Shallow embedding of the codec implemented in the repository's Julia script
(`encode_shutdown_message`, `decode_shutdown_message`, `hex_to_bytes`,
`bytes_to_hex`).  Byte sequences are modelled as `List Nat` (each element a
byte value `< 256`; the source's `Vector{UInt8}` guarantees this by type, so
theorems carry it as a hypothesis where it matters).  Julia strings are byte
sequences with no validity invariant, so a message text is modelled by its
UTF-8 byte list; hex text, which the source manipulates character by
character, is modelled as `List Char`.

Julia uses 1-based indexing; all offsets below are the 0-based translations
(`hex_bytes[19]` in the source is index 18 here, and so on).
-/

namespace ChatBgp

/-- The error taxonomy of the codec.  The source throws `ArgumentError`s with
distinguishing messages; each message maps to one constructor.  Payloads are
kept where the source interpolates the offending value into the message. -/
inductive BgpError where
  | InvalidSubcode
  | MessageTooLong (got : Nat)
  | TooShort
  | InvalidMarker
  | NotNotification (t : Nat)
  | NotCease (c : Nat)
  | Truncated
  | InvalidUtf8
  | MalformedHex
  deriving DecidableEq, Repr

/-- Result of `decode_shutdown_message`: the source returns the named tuple
`(subcode = subcode_name, message = text)`; the message is a Julia string,
i.e. a raw byte sequence. -/
structure ShutdownDecoded where
  subcode : String
  message : List Nat
  deriving DecidableEq, Repr

/-- The subcode label computed inside `decode_shutdown_message`
(source lines 157-164): 2 and 4 map to their RFC 9003 names, anything else
to `"Unknown (code=N)"` without failing. -/
def subcode_name (subcode : Nat) : String :=
  if subcode = 2 then "Administrative Shutdown"
  else if subcode = 4 then "Administrative Reset"
  else "Unknown (code=" ++ toString subcode ++ ")"

/-- `encode_shutdown_message` (source lines 94-127).  Input is the UTF-8
byte sequence of the text (the source converts `text::String` with
`Vector{UInt8}(text)`, which is exactly the byte sequence) and the subcode.
Checks: subcode must be 2 or 4, message at most 255 bytes; then emits
16 marker bytes `0xff`, the 2-byte big-endian total length
`19 + 1 + 1 + 1 + len`, type `3`, error code `6`, the subcode, the 1-byte
message length, and the message bytes verbatim. -/
def encode_shutdown_message (utf8_bytes : List Nat) (subcode : Nat) :
    Except BgpError (List Nat) :=
  if ¬ (subcode = 2 ∨ subcode = 4) then
    .error .InvalidSubcode
  else if utf8_bytes.length > 255 then
    .error (.MessageTooLong utf8_bytes.length)
  else
    let total_length := 19 + 1 + 1 + 1 + utf8_bytes.length
    .ok (List.replicate 16 255 ++
      [total_length / 256 % 256, total_length % 256, 3, 6, subcode,
        utf8_bytes.length] ++ utf8_bytes)

/-- `decode_shutdown_message` (source lines 132-190), with the source's
1-based indices shifted down by one.  The re-check `length < 22` at source
line 167 is unreachable (the same check already ran at line 134) and is
omitted.  The source's final step `String(msg_bytes)` constructs a Julia
string from the bytes without any UTF-8 validation and never throws, so the
`catch` arm raising "Invalid UTF-8 in message" is unreachable: the decoder
returns the extracted bytes unconditionally. -/
def decode_shutdown_message (hex_bytes : List Nat) :
    Except BgpError ShutdownDecoded :=
  if hex_bytes.length < 22 then
    .error .TooShort
  else if (hex_bytes.take 16).any (· ≠ 255) then
    .error .InvalidMarker
  else
    -- the declared length is read but never used (source line 144)
    let _msg_length := 256 * hex_bytes.getD 16 0 + hex_bytes.getD 17 0
    let msg_type := hex_bytes.getD 18 0
    if msg_type ≠ 3 then
      .error (.NotNotification msg_type)
    else
      let error_code := hex_bytes.getD 19 0
      if error_code ≠ 6 then
        .error (.NotCease error_code)
      else
        let subcode := hex_bytes.getD 20 0
        let text_length := hex_bytes.getD 21 0
        if text_length = 0 then
          .ok ⟨subcode_name subcode, []⟩
        else if hex_bytes.length < 22 + text_length then
          .error .Truncated
        else
          .ok ⟨subcode_name subcode, (hex_bytes.drop 22).take text_length⟩

/-- One lowercase hex digit, as printed by `@sprintf("%02x", b)`. -/
def hex_digit (n : Nat) : Char :=
  if n < 10 then Char.ofNat (48 + n) else Char.ofNat (87 + n)

/-- The two lowercase hex digits of one byte (`%02x`; a byte always prints
as exactly two digits). -/
def byte_to_hex (b : Nat) : List Char :=
  [hex_digit (b / 16), hex_digit (b % 16)]

/-- `bytes_to_hex` (source lines 218-220): `join(map(%02x, bytes), " ")`,
i.e. the bytes' hex pairs separated by single spaces. -/
def bytes_to_hex : List Nat → List Char
  | [] => []
  | [b] => byte_to_hex b
  | b :: rest => byte_to_hex b ++ ' ' :: bytes_to_hex rest

/-- Julia's `isspace`: `' '`, `'\t'`..`'\r'`, `U+0085`, or a character of
Unicode category Zs at or above `U+00A0` (per utf8proc: `U+00A0`,
`U+1680`, `U+2000`-`U+200A`, `U+202F`, `U+205F`, `U+3000`). -/
def isJuliaSpace (c : Char) : Bool :=
  c.toNat = 32 || (9 ≤ c.toNat && c.toNat ≤ 13) || c.toNat = 133 ||
  c.toNat = 160 || c.toNat = 5760 ||
  (8192 ≤ c.toNat && c.toNat ≤ 8202) || c.toNat = 8239 ||
  c.toNat = 8287 || c.toNat = 12288

/-- Value of one base-16 digit character (`0`-`9`, `a`-`f`, `A`-`F`),
as accepted by Julia's integer parser. -/
def hexDigitVal (c : Char) : Option Nat :=
  if 48 ≤ c.toNat ∧ c.toNat ≤ 57 then some (c.toNat - 48)
  else if 97 ≤ c.toNat ∧ c.toNat ≤ 102 then some (c.toNat - 87)
  else if 65 ≤ c.toNat ∧ c.toNat ≤ 70 then some (c.toNat - 55)
  else none

/-- Julia's `parse(UInt8, s, base=16)` on a character sequence: leading
whitespace is skipped, then at least one hex digit is required, then only
trailing whitespace may follow; no sign is accepted for an unsigned target
type, and a value above `0xff` overflows.  Returns `none` where the source
call throws (all such throws are caught by `hex_to_bytes` and turned into
its "Invalid hex characters" error). -/
def juliaParseHexUInt8 (s : List Char) : Option Nat :=
  let s1 := s.dropWhile (fun c => isJuliaSpace c)
  let ds := s1.takeWhile (fun c => (hexDigitVal c).isSome)
  let rest := s1.dropWhile (fun c => (hexDigitVal c).isSome)
  if ds = [] then none
  else if ¬ rest.all (fun c => isJuliaSpace c) then none
  else
    let v := ds.foldl (fun a c => 16 * a + (hexDigitVal c).getD 0) 0
    if v ≤ 255 then some v else none

/-- The cleaning step of `hex_to_bytes` (source line 197):
`replace(hex_string, " " => "")` removes space characters only —
not other whitespace. -/
def clean_hex (s : List Char) : List Char :=
  s.filter (fun c => c ≠ ' ')

/-- Number of bytes of a character's UTF-8 encoding (inputs are sequences
of Unicode scalar values, i.e. valid-UTF-8 Julia strings). -/
def charWidth (c : Char) : Nat :=
  if c.toNat < 128 then 1
  else if c.toNat < 2048 then 2
  else if c.toNat < 65536 then 3
  else 4

/-- The parsing loop of `hex_to_bytes` (source lines 204-210), faithful to
its byte indexing.  The source iterates `i in 1:2:length(clean)` — the
bound is the CHARACTER count but `i` is a BYTE index — so exactly
`charCount/2` iterations run, probing byte positions 1, 3, 5, ….  Each
iteration takes `clean[i:i+1]`: this throws `StringIndexError` (caught as
the same "Invalid hex characters" error) unless bytes `i` and `i+1` both
start a character, and otherwise yields the character at `i` (necessarily
single-byte) together with the whole character starting at `i+1`; that
2-character string goes to Julia's `parse(UInt8, _, base=16)`.  When the
second character is multi-byte, the next iteration's probe (2 bytes
further) lands inside it and fails — unless the loop has already ended,
which by the character count happens exactly at the last group, so a
multi-byte character (in practice trailing Unicode whitespace, which
`parse` tolerates) can only close the final group.  `k` is the number of
iterations left; the `some [v]` arm returns what the loop has pushed when
it ends on a drifted final group. -/
def hex_groups : Nat → List Char → Option (List Nat)
  | 0, _ => some []
  | k + 1, c1 :: c2 :: rest =>
    if charWidth c1 ≠ 1 then none
    else
      match juliaParseHexUInt8 [c1, c2] with
      | none => none
      | some v =>
        if charWidth c2 = 1 then (hex_groups k rest).map (v :: ·)
        else
          match k with
          | 0 => some [v]
          | _ + 1 => none
  | _ + 1, [] => none
  | _ + 1, [_] => none

/-- The group loop as it behaves when every character is a single UTF-8
byte: consecutive 2-character groups, each fed to Julia's
`parse(UInt8, _, base=16)`, the first failing group aborting the call.
Proved to coincide with `hex_groups` on single-byte-only input. -/
def parse_pairs : List Char → Option (List Nat)
  | [] => some []
  | c1 :: c2 :: rest =>
    match juliaParseHexUInt8 [c1, c2], parse_pairs rest with
    | some v, some vs => some (v :: vs)
    | _, _ => none
  | [_] => none

/-- `hex_to_bytes` (source lines 195-213): strip space characters, reject
an odd character count, then run the byte-indexed group loop.  Both failure
messages ("must have even number of characters", "Invalid hex characters")
are the `MalformedHex` error. -/
def hex_to_bytes (s : List Char) : Except BgpError (List Nat) :=
  let clean := clean_hex s
  if clean.length % 2 ≠ 0 then
    .error .MalformedHex
  else
    match hex_groups (clean.length / 2) clean with
    | some bs => .ok bs
    | none => .error .MalformedHex

/-- A UTF-8 continuation byte (`0x80`-`0xbf`). -/
def isCont (b : Nat) : Bool := 128 ≤ b && b < 192

/-- Modelled from the spec: validity of a byte sequence as UTF-8 text
("the byte slice must be valid UTF-8 end-to-end (no partial multi-byte
sequences)").  The source itself contains no UTF-8 validation —
`String(msg_bytes)` in Julia accepts arbitrary bytes — so this standard
checker (RFC 3629 ranges, overlong and surrogate encodings excluded) is
the reference against which the decoder's claimed `InvalidUtf8` failure
is judged. -/
def validUtf8 : List Nat → Bool
  | [] => true
  | b :: rest =>
    if b < 128 then validUtf8 rest
    else if 194 ≤ b && b ≤ 223 then
      match rest with
      | c1 :: r => isCont c1 && validUtf8 r
      | [] => false
    else if b = 224 then
      match rest with
      | c1 :: c2 :: r => (160 ≤ c1 && c1 < 192) && isCont c2 && validUtf8 r
      | _ => false
    else if 225 ≤ b && b ≤ 236 then
      match rest with
      | c1 :: c2 :: r => isCont c1 && isCont c2 && validUtf8 r
      | _ => false
    else if b = 237 then
      match rest with
      | c1 :: c2 :: r => (128 ≤ c1 && c1 < 160) && isCont c2 && validUtf8 r
      | _ => false
    else if 238 ≤ b && b ≤ 239 then
      match rest with
      | c1 :: c2 :: r => isCont c1 && isCont c2 && validUtf8 r
      | _ => false
    else if b = 240 then
      match rest with
      | c1 :: c2 :: c3 :: r =>
        (144 ≤ c1 && c1 < 192) && isCont c2 && isCont c3 && validUtf8 r
      | _ => false
    else if 241 ≤ b && b ≤ 243 then
      match rest with
      | c1 :: c2 :: c3 :: r =>
        isCont c1 && isCont c2 && isCont c3 && validUtf8 r
      | _ => false
    else if b = 244 then
      match rest with
      | c1 :: c2 :: c3 :: r =>
        (128 ≤ c1 && c1 < 144) && isCont c2 && isCont c3 && validUtf8 r
      | _ => false
    else false

/-- A character usable as a base-16 digit. -/
def isHexDigitChar (c : Char) : Bool := (hexDigitVal c).isSome

/-- Specification-side description of which 2-character groups the source's
per-group call to Julia's `parse(UInt8, _, base=16)` accepts: two hex
digits, or one hex digit with a whitespace character before or after it. -/
def pairOk (c1 c2 : Char) : Bool :=
  (isHexDigitChar c1 && isHexDigitChar c2) ||
  (isJuliaSpace c1 && isHexDigitChar c2) ||
  (isHexDigitChar c1 && isJuliaSpace c2)

/-- The byte value of an accepted 2-character group: `16*d1 + d2` for two
digits, the single digit's value otherwise. -/
def pairVal (c1 c2 : Char) : Nat :=
  match hexDigitVal c1, hexDigitVal c2 with
  | some v1, some v2 => 16 * v1 + v2
  | some v1, none => v1
  | none, some v2 => v2
  | none, none => 0

/-- Specification-side description of the group-parsing loop, built from
`pairOk`/`pairVal` rather than from the embedded Julia parser; compared
against `hex_to_bytes` in the amended C7 theorem. -/
def pairs_spec : List Char → Option (List Nat)
  | [] => some []
  | c1 :: c2 :: rest =>
    if pairOk c1 c2 then (pairs_spec rest).map (pairVal c1 c2 :: ·)
    else none
  | [_] => none

/-- Result shape of the universal decoder, restricted to the fields claim
C9 concerns (the registry name lookup and the `interpretation` string of
spec §4.2 are orthogonal to `data_length`/`Truncated` and are omitted). -/
structure UniversalDecoded where
  error_code : Nat
  subcode : Nat
  data_length : Nat
  deriving DecidableEq, Repr

/-- Modelled from the spec: `decode_universal_notification`.  The wasm
implementation is not in the repository (the frontend `App.jsx` only calls
it), so this follows spec §4.2 "decode_universal": the same header
validation as `decode_shutdown` (marker all `0xff`, type 3) but without
requiring error code 6; `error_code` read at offset 19 and `subcode` at
offset 20; failure with `Truncated` when the declared 16-bit big-endian
header length does not match the actual byte count; `data_length` equal to
the number of bytes from offset 21 to the end (no inner length-prefix
byte).  A message must reach offset 20, hence the 21-byte minimum. -/
def decode_universal_notification (raw : List Nat) :
    Except BgpError UniversalDecoded :=
  if raw.length < 21 then
    .error .TooShort
  else if (raw.take 16).any (· ≠ 255) then
    .error .InvalidMarker
  else if raw.getD 18 0 ≠ 3 then
    .error (.NotNotification (raw.getD 18 0))
  else if 256 * raw.getD 16 0 + raw.getD 17 0 ≠ raw.length then
    .error .Truncated
  else
    .ok ⟨raw.getD 19 0, raw.getD 20 0, raw.length - 21⟩

set_option maxRecDepth 8000

theorem decode_ok_of_valid (b : List Nat) (hlen : 22 ≤ b.length)
    (hmark : (b.take 16).any (· ≠ 255) = false)
    (htype : b.getD 18 0 = 3) (hcode : b.getD 19 0 = 6)
    (htl : 22 + b.getD 21 0 ≤ b.length) :
    decode_shutdown_message b =
      .ok ⟨subcode_name (b.getD 20 0), (b.drop 22).take (b.getD 21 0)⟩ := by
  have h1 : ¬ b.length < 22 := by omega
  have h2 : ¬ b.length < 22 + b.getD 21 0 := by omega
  unfold decode_shutdown_message
  rw [if_neg h1, if_neg (by rw [hmark]; simp)]
  rw [if_neg (by rw [htype]; simp)]
  rw [if_neg (by rw [hcode]; simp)]
  by_cases h0 : b.getD 21 0 = 0
  · rw [if_pos h0, h0]
    simp
  · rw [if_neg h0, if_neg h2]

theorem encode_ok (msg : List Nat) (s : Nat) (hs : s = 2 ∨ s = 4)
    (hlen : msg.length ≤ 255) :
    encode_shutdown_message msg s =
      .ok (List.replicate 16 255 ++
        [(22 + msg.length) / 256 % 256, (22 + msg.length) % 256, 3, 6, s,
          msg.length] ++ msg) := by
  unfold encode_shutdown_message
  rw [if_neg (by tauto), if_neg (by omega)]

theorem encoded_facts (msg : List Nat) (s : Nat) :
    ((List.replicate 16 255 ++
      [(22 + msg.length) / 256 % 256, (22 + msg.length) % 256, 3, 6, s,
        msg.length] ++ msg).length = 22 + msg.length) ∧
    (((List.replicate 16 255 ++
      [(22 + msg.length) / 256 % 256, (22 + msg.length) % 256, 3, 6, s,
        msg.length] ++ msg).take 16).any (· ≠ 255) = false) ∧
    ((List.replicate 16 255 ++
      [(22 + msg.length) / 256 % 256, (22 + msg.length) % 256, 3, 6, s,
        msg.length] ++ msg).getD 18 0 = 3) ∧
    ((List.replicate 16 255 ++
      [(22 + msg.length) / 256 % 256, (22 + msg.length) % 256, 3, 6, s,
        msg.length] ++ msg).getD 19 0 = 6) ∧
    ((List.replicate 16 255 ++
      [(22 + msg.length) / 256 % 256, (22 + msg.length) % 256, 3, 6, s,
        msg.length] ++ msg).getD 20 0 = s) ∧
    ((List.replicate 16 255 ++
      [(22 + msg.length) / 256 % 256, (22 + msg.length) % 256, 3, 6, s,
        msg.length] ++ msg).getD 21 0 = msg.length) ∧
    ((List.replicate 16 255 ++
      [(22 + msg.length) / 256 % 256, (22 + msg.length) % 256, 3, 6, s,
        msg.length] ++ msg).drop 22 = msg) := by
  refine ⟨by simp; omega, ?_, ?_, ?_, ?_, ?_, ?_⟩
  · have ht : ((List.replicate 16 (255:Nat) ++
        [(22 + msg.length) / 256 % 256, (22 + msg.length) % 256, 3, 6, s,
          msg.length] ++ msg).take 16) = List.replicate 16 255 := by
      simp [List.take_append_eq_append_take]
    rw [ht]; decide
  · rw [List.getD_append _ _ _ _ (by simp),
      List.getD_append_right _ _ _ _ (by simp)]
    simp [List.getD]
  · rw [List.getD_append _ _ _ _ (by simp),
      List.getD_append_right _ _ _ _ (by simp)]
    simp [List.getD]
  · rw [List.getD_append _ _ _ _ (by simp),
      List.getD_append_right _ _ _ _ (by simp)]
    simp [List.getD]
  · rw [List.getD_append _ _ _ _ (by simp),
      List.getD_append_right _ _ _ _ (by simp)]
    simp [List.getD]
  · exact List.drop_left' (by simp)

/-- C1: for every message of at most 255 UTF-8 bytes and subcode in {2,4},
decoding the encoding succeeds with the subcode's label and the original
message, and the raw subcode byte of the wire message equals the subcode. -/
theorem C1_shutdown_roundtrip (msg : List Nat) (subcode : Nat)
    (hlen : msg.length ≤ 255) (hs : subcode = 2 ∨ subcode = 4) :
    (encode_shutdown_message msg subcode).bind decode_shutdown_message =
      .ok ⟨subcode_name subcode, msg⟩ ∧
    (encode_shutdown_message msg subcode).map (fun e => e.getD 20 0) =
      .ok subcode := by
  obtain ⟨hL, hA, h18, h19, h20, h21, hD⟩ := encoded_facts msg subcode
  rw [encode_ok msg subcode hs hlen]
  constructor
  · show decode_shutdown_message _ = _
    rw [decode_ok_of_valid _ (by rw [hL]; omega) hA h18 h19
      (by rw [hL, h21])]
    simp [h20, h21, hD]
  · simp [Except.map, h20]

theorem C1_witness :
    (encode_shutdown_message [84, 101, 115, 116] 2).bind
      decode_shutdown_message =
      .ok ⟨subcode_name 2, [84, 101, 115, 116]⟩ ∧
    (encode_shutdown_message [84, 101, 115, 116] 2).map
      (fun e => e.getD 20 0) = .ok 2 :=
  C1_shutdown_roundtrip [84, 101, 115, 116] 2 (by decide) (Or.inl rfl)

/-- C3: the encoder's exact wire layout, plus the two concrete vectors. -/
theorem C3_encode_layout :
    (∀ (msg : List Nat) (s : Nat), msg.length ≤ 255 → (s = 2 ∨ s = 4) →
      encode_shutdown_message msg s =
        .ok (List.replicate 16 255 ++
          [(19 + 1 + 1 + 1 + msg.length) / 256,
            (19 + 1 + 1 + 1 + msg.length) % 256, 3, 6, s, msg.length] ++
          msg)) ∧
    encode_shutdown_message [84, 101, 115, 116] 2 =
      .ok [255, 255, 255, 255, 255, 255, 255, 255, 255, 255, 255, 255, 255,
        255, 255, 255, 0, 26, 3, 6, 2, 4, 84, 101, 115, 116] ∧
    encode_shutdown_message [] 4 =
      .ok (List.replicate 16 255 ++ [0, 22, 3, 6, 4, 0]) ∧
    (List.replicate 16 (255 : Nat) ++ [0, 22, 3, 6, 4, 0]).length = 22 ∧
    (List.replicate 16 (255 : Nat) ++ [0, 22, 3, 6, 4, 0]).getD 21 0 = 0 := by
  refine ⟨?_, by rfl, by rfl, by decide, by decide⟩
  intro msg s hlen hs
  rw [encode_ok msg s hs hlen]
  have h1 : (22 + msg.length) / 256 ≤ 277 / 256 :=
    Nat.div_le_div_right (by omega)
  have hdiv : (22 + msg.length) / 256 % 256 = (22 + msg.length) / 256 :=
    Nat.mod_eq_of_lt (by omega)
  rw [hdiv]

theorem C3_witness :
    encode_shutdown_message [84, 101, 115, 116] 2 =
      .ok (List.replicate 16 255 ++
        [(19 + 1 + 1 + 1 + ([84, 101, 115, 116] : List Nat).length) / 256,
          (19 + 1 + 1 + 1 + ([84, 101, 115, 116] : List Nat).length) % 256,
          3, 6, 2, ([84, 101, 115, 116] : List Nat).length] ++
        [84, 101, 115, 116]) :=
  C3_encode_layout.1 [84, 101, 115, 116] 2 (by decide) (Or.inl rfl)

/-- C4: error cases of the encoder and the 255/256-byte boundary. -/
theorem C4_encode_errors :
    (∀ (msg : List Nat) (s : Nat), s ≠ 2 → s ≠ 4 →
      encode_shutdown_message msg s = .error .InvalidSubcode) ∧
    (∀ (msg : List Nat) (s : Nat), 255 < msg.length → (s = 2 ∨ s = 4) →
      encode_shutdown_message msg s = .error (.MessageTooLong msg.length)) ∧
    encode_shutdown_message (List.replicate 255 97) 2 =
      .ok (List.replicate 16 255 ++ [1, 21, 3, 6, 2, 255] ++
        List.replicate 255 97) ∧
    (List.replicate 16 (255 : Nat) ++ [1, 21, 3, 6, 2, 255] ++
      List.replicate 255 97).length = 277 ∧
    encode_shutdown_message (List.replicate 256 97) 2 =
      .error (.MessageTooLong 256) := by
  refine ⟨?_, ?_, ?_, by simp, ?_⟩
  · intro msg s h2 h4
    unfold encode_shutdown_message
    rw [if_pos (by tauto)]
  · intro msg s hlen hs
    unfold encode_shutdown_message
    rw [if_neg (by tauto), if_pos (by omega)]
  · rw [encode_ok (List.replicate 255 97) 2 (Or.inl rfl) (by simp)]
    norm_num
  · unfold encode_shutdown_message
    rw [if_neg (by norm_num), if_pos (by simp)]
    simp

theorem C4_witness :
    encode_shutdown_message [1, 2, 3] 9 = .error .InvalidSubcode ∧
    encode_shutdown_message (List.replicate 256 97) 4 =
      .error (.MessageTooLong (List.replicate 256 97).length) :=
  ⟨C4_encode_errors.1 [1, 2, 3] 9 (by decide) (by decide),
   C4_encode_errors.2.1 (List.replicate 256 97) 4 (by simp) (Or.inr rfl)⟩
theorem marker_any_true (b : List Nat) (hlen : 16 ≤ b.length)
    (i : Nat) (hi : i < 16) (hb : b.getD i 0 ≠ 255) :
    (b.take 16).any (· ≠ 255) = true := by
  have hil : i < b.length := by omega
  rw [List.any_eq_true]
  refine ⟨b[i], ?_, ?_⟩
  · have h1 : i < (b.take 16).length := by simp [List.length_take]; omega
    have h2 : (b.take 16).get ⟨i, h1⟩ = b.get ⟨i, hil⟩ := List.getElem_take b
    rw [show (b[i] : Nat) = b.get ⟨i, hil⟩ from rfl, ← h2]
    exact List.get_mem _ _ _
  · rw [List.getD_eq_getElem b 0 hil] at hb
    simpa using hb

theorem marker_any_false (b : List Nat) (hlen : 16 ≤ b.length)
    (h : ∀ i, i < 16 → b.getD i 0 = 255) :
    (b.take 16).any (· ≠ 255) = false := by
  rw [List.any_eq_false]
  intro x hx
  obtain ⟨i, hi, hxe⟩ := List.mem_iff_getElem.mp hx
  have hi16 : i < 16 := by simp [List.length_take] at hi; omega
  have hil : i < b.length := by omega
  have hxb : x = b.get ⟨i, hil⟩ := by rw [← hxe]; exact List.getElem_take b
  have h255 := h i hi16
  rw [List.getD_eq_getElem b 0 hil] at h255
  simp [hxb, h255, List.get_eq_getElem]

/-- C5: decoder failure cases in check order. -/
theorem C5_decode_errors :
    (∀ b : List Nat, b.length < 22 →
      decode_shutdown_message b = .error .TooShort) ∧
    (∀ b : List Nat, 22 ≤ b.length → (∃ i, i < 16 ∧ b.getD i 0 ≠ 255) →
      decode_shutdown_message b = .error .InvalidMarker) ∧
    (∀ b : List Nat, 22 ≤ b.length → (∀ i, i < 16 → b.getD i 0 = 255) →
      b.getD 18 0 ≠ 3 →
      decode_shutdown_message b = .error (.NotNotification (b.getD 18 0))) ∧
    (∀ b : List Nat, 22 ≤ b.length → (∀ i, i < 16 → b.getD i 0 = 255) →
      b.getD 18 0 = 3 → b.getD 19 0 ≠ 6 →
      decode_shutdown_message b = .error (.NotCease (b.getD 19 0))) ∧
    decode_shutdown_message
      ([255, 255, 255, 255, 255, 0] ++ List.replicate 16 255) =
      .error .InvalidMarker := by
  refine ⟨?_, ?_, ?_, ?_, by rfl⟩
  · intro b h
    unfold decode_shutdown_message
    rw [if_pos h]
  · intro b hlen ⟨i, hi, hb⟩
    unfold decode_shutdown_message
    rw [if_neg (by omega),
      if_pos (marker_any_true b (by omega) i hi hb)]
  · intro b hlen hmark h3
    unfold decode_shutdown_message
    rw [if_neg (by omega),
      if_neg (by rw [marker_any_false b (by omega) hmark]; simp),
      if_pos h3]
  · intro b hlen hmark h3 h6
    unfold decode_shutdown_message
    rw [if_neg (by omega),
      if_neg (by rw [marker_any_false b (by omega) hmark]; simp),
      if_neg (by rw [h3]; simp), if_pos h6]

theorem C5_witness :
    decode_shutdown_message (List.replicate 21 255) = .error .TooShort ∧
    decode_shutdown_message ([0] ++ List.replicate 21 255) =
      .error .InvalidMarker ∧
    decode_shutdown_message (List.replicate 16 255 ++ [0, 22, 9, 6, 2, 0]) =
      .error (.NotNotification
        ((List.replicate 16 (255 : Nat) ++ [0, 22, 9, 6, 2, 0]).getD 18 0)) ∧
    decode_shutdown_message (List.replicate 16 255 ++ [0, 22, 3, 5, 2, 0]) =
      .error (.NotCease
        ((List.replicate 16 (255 : Nat) ++ [0, 22, 3, 5, 2, 0]).getD 19 0)) :=
  ⟨C5_decode_errors.1 (List.replicate 21 255) (by decide),
   C5_decode_errors.2.1 ([0] ++ List.replicate 21 255) (by decide)
     ⟨0, by decide, by decide⟩,
   C5_decode_errors.2.2.1 (List.replicate 16 255 ++ [0, 22, 9, 6, 2, 0])
     (by decide) (by decide) (by decide),
   C5_decode_errors.2.2.2.1 (List.replicate 16 255 ++ [0, 22, 3, 5, 2, 0])
     (by decide) (by decide) (by decide) (by decide)⟩

/-- C6: text-length handling of the decoder, and the unreachable
`InvalidUtf8` failure: on a structurally valid message whose text bytes are
not valid UTF-8 the decoder succeeds, returning the raw bytes. -/
theorem C6_text_length_handling :
    (∀ b : List Nat, 22 ≤ b.length → (b.take 16).any (· ≠ 255) = false →
      b.getD 18 0 = 3 → b.getD 19 0 = 6 → b.getD 21 0 = 0 →
      decode_shutdown_message b = .ok ⟨subcode_name (b.getD 20 0), []⟩) ∧
    (∀ b : List Nat, 22 ≤ b.length → (b.take 16).any (· ≠ 255) = false →
      b.getD 18 0 = 3 → b.getD 19 0 = 6 →
      b.getD 21 0 ≠ 0 → b.length < 22 + b.getD 21 0 →
      decode_shutdown_message b = .error .Truncated) ∧
    validUtf8 [255] = false ∧
    decode_shutdown_message
      (List.replicate 16 255 ++ [0, 23, 3, 6, 2, 1, 255]) =
      .ok ⟨"Administrative Shutdown", [255]⟩ := by
  refine ⟨?_, ?_, by rfl, by rfl⟩
  · intro b hlen hmark h3 h6 h0
    have := decode_ok_of_valid b hlen hmark h3 h6 (by omega)
    rw [this, h0]
    simp
  · intro b hlen hmark h3 h6 h0 hlt
    unfold decode_shutdown_message
    rw [if_neg (by omega), if_neg (by rw [hmark]; simp),
      if_neg (by rw [h3]; simp), if_neg (by rw [h6]; simp),
      if_neg h0, if_pos hlt]

theorem C6_witness :
    decode_shutdown_message (List.replicate 16 255 ++ [0, 22, 3, 6, 4, 0]) =
      .ok ⟨subcode_name
        ((List.replicate 16 (255 : Nat) ++ [0, 22, 3, 6, 4, 0]).getD 20 0),
        []⟩ ∧
    decode_shutdown_message (List.replicate 16 255 ++ [0, 30, 3, 6, 2, 9]) =
      .error .Truncated :=
  ⟨C6_text_length_handling.1 (List.replicate 16 255 ++ [0, 22, 3, 6, 4, 0])
     (by decide) (by decide) (by decide) (by decide) (by decide),
   C6_text_length_handling.2.1 (List.replicate 16 255 ++ [0, 30, 3, 6, 2, 9])
     (by decide) (by decide) (by decide) (by decide) (by decide) (by decide)⟩

/-- C8: unknown subcodes under Cease still decode, labelled
"Unknown (code=N)"; 2 and 4 get their RFC 9003 names. -/
theorem C8_unknown_subcode_decodes :
    (∀ b : List Nat, 22 ≤ b.length → (b.take 16).any (· ≠ 255) = false →
      b.getD 18 0 = 3 → b.getD 19 0 = 6 → 22 + b.getD 21 0 ≤ b.length →
      decode_shutdown_message b =
        .ok ⟨subcode_name (b.getD 20 0), (b.drop 22).take (b.getD 21 0)⟩) ∧
    (∀ s : Nat, s ≠ 2 → s ≠ 4 →
      subcode_name s = "Unknown (code=" ++ toString s ++ ")") ∧
    subcode_name 2 = "Administrative Shutdown" ∧
    subcode_name 4 = "Administrative Reset" ∧
    subcode_name 9 = "Unknown (code=9)" ∧
    decode_shutdown_message (List.replicate 16 255 ++ [0, 22, 3, 6, 9, 0]) =
      .ok ⟨"Unknown (code=9)", []⟩ := by
  refine ⟨decode_ok_of_valid, ?_, by rfl, by rfl, by rfl, by rfl⟩
  intro s h2 h4
  unfold subcode_name
  rw [if_neg h2, if_neg h4]

theorem C8_witness :
    decode_shutdown_message (List.replicate 16 255 ++ [0, 23, 3, 6, 9, 1, 65]) =
      .ok ⟨subcode_name
        ((List.replicate 16 (255 : Nat) ++ [0, 23, 3, 6, 9, 1, 65]).getD 20 0),
        ((List.replicate 16 (255 : Nat) ++ [0, 23, 3, 6, 9, 1, 65]).drop
          22).take
          ((List.replicate 16 (255 : Nat) ++ [0, 23, 3, 6, 9, 1, 65]).getD 21
            0)⟩ ∧
    subcode_name 7 = "Unknown (code=" ++ toString 7 ++ ")" :=
  ⟨C8_unknown_subcode_decodes.1
     (List.replicate 16 255 ++ [0, 23, 3, 6, 9, 1, 65]) (by decide)
     (by decide) (by decide) (by decide) (by decide),
   C8_unknown_subcode_decodes.2.1 7 (by decide) (by decide)⟩

/-- C10: on a structurally valid input, overwriting the declared length
bytes (offsets 16-17) and appending trailing bytes leaves the decode
result unchanged. -/
theorem C10_decode_ignores_length_and_trailing (b : List Nat)
    (v1 v2 : Nat) (extra : List Nat) (hlen : 22 ≤ b.length)
    (hmark : (b.take 16).any (· ≠ 255) = false)
    (htype : b.getD 18 0 = 3) (hcode : b.getD 19 0 = 6)
    (htl : 22 + b.getD 21 0 ≤ b.length) :
    decode_shutdown_message ((b.set 16 v1).set 17 v2 ++ extra) =
      decode_shutdown_message b := by
  have hXlen : ((b.set 16 v1).set 17 v2).length = b.length := by simp
  have hget : ∀ n, n ≠ 16 → n ≠ 17 → n < b.length →
      ((b.set 16 v1).set 17 v2 ++ extra)[n]? = b[n]? := by
    intro n h16 h17 hn
    rw [List.getElem?_append, if_pos (by rw [hXlen]; exact hn)]
    rw [List.getElem?_set_ne (by omega), List.getElem?_set_ne (by omega)]
  have hgetD : ∀ n, 18 ≤ n → n < b.length →
      ((b.set 16 v1).set 17 v2 ++ extra).getD n 0 = b.getD n 0 := by
    intro n h18 hn
    rw [List.getD_eq_getElem?_getD, List.getD_eq_getElem?_getD,
      hget n (by omega) (by omega) hn]
  have hlen' : 22 ≤ ((b.set 16 v1).set 17 v2 ++ extra).length := by
    simp; omega
  have htake : ((b.set 16 v1).set 17 v2 ++ extra).take 16 = b.take 16 := by
    apply List.ext_getElem?
    intro n
    rw [List.getElem?_take, List.getElem?_take]
    by_cases hn : n < 16
    · rw [if_pos hn, if_pos hn, hget n (by omega) (by omega) (by omega)]
    · rw [if_neg hn, if_neg hn]
  have h18' := hgetD 18 (by omega) (by omega)
  have h19' := hgetD 19 (by omega) (by omega)
  have h20' := hgetD 20 (by omega) (by omega)
  have h21' := hgetD 21 (by omega) (by omega)
  have hslice : (((b.set 16 v1).set 17 v2 ++ extra).drop 22).take
      (b.getD 21 0) = (b.drop 22).take (b.getD 21 0) := by
    apply List.ext_getElem?
    intro n
    rw [List.getElem?_take, List.getElem?_take]
    by_cases hn : n < b.getD 21 0
    · rw [if_pos hn, if_pos hn, List.getElem?_drop, List.getElem?_drop,
        hget (22 + n) (by omega) (by omega) (by omega)]
    · rw [if_neg hn, if_neg hn]
  rw [decode_ok_of_valid b hlen hmark htype hcode htl,
    decode_ok_of_valid _ hlen' (by rw [htake]; exact hmark)
      (by rw [h18']; exact htype) (by rw [h19']; exact hcode)
      (by rw [h21']; simp only [List.length_append, List.length_set]; omega)]
  rw [h20', h21', hslice]

theorem C10_witness :
    decode_shutdown_message
      ((((List.replicate 16 255 ++ [0, 26, 3, 6, 2, 4, 84, 101, 115, 116]).set
        16 170).set 17 187) ++ [1, 2, 3]) =
      decode_shutdown_message
        (List.replicate 16 255 ++ [0, 26, 3, 6, 2, 4, 84, 101, 115, 116]) :=
  C10_decode_ignores_length_and_trailing
    (List.replicate 16 255 ++ [0, 26, 3, 6, 2, 4, 84, 101, 115, 116])
    170 187 [1, 2, 3] (by decide) (by decide) (by decide) (by decide)
    (by decide)
theorem hexDigitVal_lt_16 (c : Char) (v : Nat) (h : hexDigitVal c = some v) :
    v < 16 := by
  unfold hexDigitVal at h
  split_ifs at h <;> simp_all <;> omega

theorem isJuliaSpace_eq_false_of_digit (c : Char) (v : Nat)
    (h : hexDigitVal c = some v) : isJuliaSpace c = false := by
  unfold hexDigitVal at h
  unfold isJuliaSpace
  split_ifs at h with h1 h2 h3 <;> simp <;> omega

theorem juliaParse_pair (c1 c2 : Char) :
    juliaParseHexUInt8 [c1, c2] =
      if pairOk c1 c2 then some (pairVal c1 c2) else none := by
  unfold juliaParseHexUInt8 pairOk pairVal isHexDigitChar
  cases hv1 : hexDigitVal c1 with
  | some v1 =>
    have hs1 := isJuliaSpace_eq_false_of_digit c1 v1 hv1
    have hlt1 := hexDigitVal_lt_16 c1 v1 hv1
    cases hv2 : hexDigitVal c2 with
    | some v2 =>
      have hs2 := isJuliaSpace_eq_false_of_digit c2 v2 hv2
      have hlt2 := hexDigitVal_lt_16 c2 v2 hv2
      simp [List.dropWhile, List.takeWhile, hs1, hs2, hv1, hv2]
      omega
    | none =>
      by_cases hs2 : isJuliaSpace c2 = true
      · simp [List.dropWhile, List.takeWhile, hs1, hs2, hv1, hv2,
          hexDigitVal_lt_16 c1 v1 hv1]
        omega
      · simp at hs2
        simp [List.dropWhile, List.takeWhile, hs1, hs2, hv1, hv2]
  | none =>
    by_cases hs1 : isJuliaSpace c1 = true
    · cases hv2 : hexDigitVal c2 with
      | some v2 =>
        have hs2 := isJuliaSpace_eq_false_of_digit c2 v2 hv2
        have hlt2 := hexDigitVal_lt_16 c2 v2 hv2
        simp [List.dropWhile, List.takeWhile, hs1, hs2, hv1, hv2]
        omega
      | none =>
        by_cases hs2 : isJuliaSpace c2 = true
        · simp [List.dropWhile, List.takeWhile, hs1, hs2, hv1, hv2]
        · simp at hs2
          simp [List.dropWhile, List.takeWhile, hs1, hs2, hv1, hv2]
    · simp at hs1
      simp [List.dropWhile, List.takeWhile, hs1, hv1]
theorem hex_digit_facts (d : Nat) (hd : d < 16) :
    hexDigitVal (hex_digit d) = some d ∧
    isJuliaSpace (hex_digit d) = false ∧ hex_digit d ≠ ' ' := by
  revert d
  decide

theorem juliaParse_byte_to_hex (b : Nat) (hb : b < 256) :
    juliaParseHexUInt8 (byte_to_hex b) = some b := by
  unfold byte_to_hex
  rw [juliaParse_pair]
  obtain ⟨hv1, hs1, _⟩ := hex_digit_facts (b / 16) (by omega)
  obtain ⟨hv2, hs2, _⟩ := hex_digit_facts (b % 16) (by omega)
  rw [if_pos (by simp [pairOk, isHexDigitChar, hv1, hv2])]
  simp [pairVal, hv1, hv2]
  omega

theorem clean_hex_bytes_to_hex (B : List Nat) (hB : ∀ b ∈ B, b < 256) :
    clean_hex (bytes_to_hex B) = B.flatMap byte_to_hex := by
  induction B with
  | nil => rfl
  | cons b rest ih =>
    have hb : b < 256 := hB b (by simp)
    obtain ⟨_, _, hne1⟩ := hex_digit_facts (b / 16) (by omega)
    obtain ⟨_, _, hne2⟩ := hex_digit_facts (b % 16) (by omega)
    cases rest with
    | nil =>
      simp [bytes_to_hex, clean_hex, byte_to_hex, hne1, hne2]
    | cons r rs =>
      rw [show bytes_to_hex (b :: r :: rs) =
          byte_to_hex b ++ ' ' :: bytes_to_hex (r :: rs) from rfl]
      rw [show clean_hex (byte_to_hex b ++ ' ' :: bytes_to_hex (r :: rs)) =
            clean_hex (byte_to_hex b) ++
              clean_hex (' ' :: bytes_to_hex (r :: rs))
          from List.filter_append _ _]
      have h1 : clean_hex (byte_to_hex b) = byte_to_hex b := by
        simp [clean_hex, byte_to_hex, List.filter, hne1, hne2]
      have h2 : clean_hex (' ' :: bytes_to_hex (r :: rs)) =
          clean_hex (bytes_to_hex (r :: rs)) := by
        simp [clean_hex, List.filter]
      rw [h1, h2, ih (fun x hx => hB x (by simp [hx]))]
      simp [List.flatMap_cons]

theorem parse_pairs_bind (B : List Nat) (hB : ∀ b ∈ B, b < 256) :
    parse_pairs (B.flatMap byte_to_hex) = some B := by
  induction B with
  | nil => rfl
  | cons b rest ih =>
    have hb : b < 256 := hB b (by simp)
    rw [List.flatMap_cons]
    rw [show byte_to_hex b ++ rest.flatMap byte_to_hex =
      hex_digit (b / 16) :: hex_digit (b % 16) :: rest.flatMap byte_to_hex
      from rfl]
    rw [parse_pairs]
    rw [show [hex_digit (b / 16), hex_digit (b % 16)] = byte_to_hex b from rfl]
    rw [juliaParse_byte_to_hex b hb, ih (fun x hx => hB x (by simp [hx]))]

theorem length_bind_byte_to_hex (B : List Nat) :
    (B.flatMap byte_to_hex).length = 2 * B.length := by
  induction B with
  | nil => rfl
  | cons b rest ih =>
    rw [List.flatMap_cons]
    simp [byte_to_hex, ih]
    omega

/-- C2: decoding the hex rendering of any byte sequence recovers it. -/
theorem hex_digit_width (d : Nat) (hd : d < 16) :
    charWidth (hex_digit d) = 1 := by
  revert d
  decide

theorem hex_groups_eq_parse_pairs (k : Nat) :
    ∀ L : List Char, (∀ c ∈ L, charWidth c = 1) → L.length = 2 * k →
      hex_groups k L = parse_pairs L := by
  induction k with
  | zero =>
    intro L _ hk
    have hnil : L = [] := List.eq_nil_of_length_eq_zero (by omega)
    subst hnil
    rfl
  | succ k ih =>
    intro L hA hk
    match L with
    | [] => simp at hk
    | [c] => simp at hk; omega
    | c1 :: c2 :: rest =>
      have h1 : charWidth c1 = 1 := hA c1 (by simp)
      have h2 : charWidth c2 = 1 := hA c2 (by simp)
      have hrest : hex_groups k rest = parse_pairs rest :=
        ih rest (fun c hc => hA c (by simp [hc])) (by simp at hk; omega)
      cases hp : juliaParseHexUInt8 [c1, c2] with
      | none =>
        cases hq : parse_pairs rest <;>
          simp [hex_groups, parse_pairs, h1, h2, hp, hq]
      | some v =>
        cases hq : parse_pairs rest <;>
          simp [hex_groups, parse_pairs, h1, h2, hp, hq, hrest]

theorem C2_hex_roundtrip (B : List Nat) (hB : ∀ b ∈ B, b < 256) :
    hex_to_bytes (bytes_to_hex B) = .ok B := by
  unfold hex_to_bytes
  rw [clean_hex_bytes_to_hex B hB]
  rw [if_neg (by rw [length_bind_byte_to_hex]; omega)]
  have hW : ∀ c ∈ B.flatMap byte_to_hex, charWidth c = 1 := by
    intro c hc
    obtain ⟨b, hb, hcb⟩ := List.mem_flatMap.mp hc
    have hblt := hB b hb
    have hor : c = hex_digit (b / 16) ∨ c = hex_digit (b % 16) := by
      simpa [byte_to_hex] using hcb
    rcases hor with h | h
    · rw [h]; exact hex_digit_width (b / 16) (by omega)
    · rw [h]; exact hex_digit_width (b % 16) (by omega)
  rw [hex_groups_eq_parse_pairs _ _ hW
    (by rw [length_bind_byte_to_hex]; omega)]
  rw [parse_pairs_bind B hB]

theorem C2_witness : hex_to_bytes (bytes_to_hex [0, 26, 171, 255]) =
    .ok [0, 26, 171, 255] :=
  C2_hex_roundtrip [0, 26, 171, 255] (by decide)
theorem parse_pairs_eq_spec : ∀ l : List Char, parse_pairs l = pairs_spec l
  | [] => rfl
  | [_] => rfl
  | c1 :: c2 :: rest => by
    rw [show parse_pairs (c1 :: c2 :: rest) =
        (match juliaParseHexUInt8 [c1, c2], parse_pairs rest with
         | some v, some vs => some (v :: vs)
         | _, _ => none) from rfl]
    rw [show pairs_spec (c1 :: c2 :: rest) =
        (if pairOk c1 c2 then (pairs_spec rest).map (pairVal c1 c2 :: ·)
         else none) from rfl]
    rw [juliaParse_pair c1 c2, parse_pairs_eq_spec rest]
    by_cases h : pairOk c1 c2 = true
    · rw [if_pos h, if_pos h]
      cases pairs_spec rest <;> simp
    · rw [if_neg h, if_neg h]

/-- C7 (amended): the hex decoder strips only space characters.  On ASCII
input it fails with `MalformedHex` exactly when the remaining length is odd
or some 2-character group is not two hex digits and not one hex digit with
a whitespace character on one side; an input that is empty after stripping
succeeds with the empty byte sequence, and `"abc"` fails.  On non-ASCII
input the source's byte-indexed grouping applies: a multi-byte whitespace
character is tolerated as the trailing half of the final group (so
`"a"+U+00A0` decodes to `[0x0a]` and `"ab c"+U+2009` to `[0xab, 0x0c]`),
while a multi-byte character anywhere else breaks a probe onto a
non-character byte boundary and fails (`U+2009 a U+2009 b`). -/
theorem C7_hex_decode_characterization :
    (∀ s : List Char, (∀ c ∈ s, c.toNat < 128) →
      hex_to_bytes s =
        if (clean_hex s).length % 2 ≠ 0 then .error .MalformedHex
        else
          match pairs_spec (clean_hex s) with
          | some bs => .ok bs
          | none => .error .MalformedHex) ∧
    hex_to_bytes ['a', 'b', 'c'] = .error .MalformedHex ∧
    hex_to_bytes [] = .ok [] ∧
    hex_to_bytes ['a', '\u00A0'] = .ok [10] ∧
    hex_to_bytes ['a', 'b', ' ', 'c', '\u2009'] = .ok [171, 12] ∧
    hex_to_bytes ['\u2009', 'a', '\u2009', 'b'] = .error .MalformedHex := by
  refine ⟨?_, by rfl, by rfl, by rfl, by rfl, by rfl⟩
  intro s hASCII
  show (if (clean_hex s).length % 2 ≠ 0 then Except.error BgpError.MalformedHex
      else
        match hex_groups ((clean_hex s).length / 2) (clean_hex s) with
        | some bs => Except.ok bs
        | none => Except.error BgpError.MalformedHex) = _
  by_cases hodd : (clean_hex s).length % 2 ≠ 0
  · rw [if_pos hodd, if_pos hodd]
  · rw [if_neg hodd, if_neg hodd]
    have hW : ∀ c ∈ clean_hex s, charWidth c = 1 := by
      intro c hc
      have hcs : c ∈ s := List.mem_of_mem_filter hc
      have hlt := hASCII c hcs
      unfold charWidth
      rw [if_pos hlt]
    rw [hex_groups_eq_parse_pairs _ _ hW (by omega), parse_pairs_eq_spec]

/-- C7 counterexample: the claim's failure condition is wrong on both ends —
an empty input succeeds with the empty byte list (the claim requires
`MalformedHex` on zero remaining length), and a tab followed by a hex digit
succeeds (a tab is whitespace the claim says is stripped, and is not a hex
digit, so the claim requires `MalformedHex` here too). -/
theorem C7_counterexample :
    hex_to_bytes [] = .ok [] ∧ hex_to_bytes ['\t', 'a'] = .ok [10] :=
  ⟨rfl, rfl⟩

theorem C7_witness :
    hex_to_bytes ['a', 'b', 'c'] =
      (if (clean_hex ['a', 'b', 'c']).length % 2 ≠ 0 then
        .error .MalformedHex
      else
        match pairs_spec (clean_hex ['a', 'b', 'c']) with
        | some bs => .ok bs
        | none => .error .MalformedHex) :=
  C7_hex_decode_characterization.1 ['a', 'b', 'c'] (by decide)

/-- C9: the spec-modelled universal decoder fails with `Truncated` exactly
when the declared header length differs from the actual byte count, and on
success reports `data_length` as the byte count from offset 21 to the end. -/
theorem C9_universal_data_length (raw : List Nat) (hlen : 21 ≤ raw.length)
    (hmark : (raw.take 16).any (· ≠ 255) = false)
    (htype : raw.getD 18 0 = 3) :
    (256 * raw.getD 16 0 + raw.getD 17 0 ≠ raw.length →
      decode_universal_notification raw = .error .Truncated) ∧
    (256 * raw.getD 16 0 + raw.getD 17 0 = raw.length →
      decode_universal_notification raw =
        .ok ⟨raw.getD 19 0, raw.getD 20 0, raw.length - 21⟩) := by
  unfold decode_universal_notification
  rw [if_neg (by omega), if_neg (by rw [hmark]; simp),
    if_neg (by rw [htype]; simp)]
  constructor
  · intro hne
    rw [if_pos hne]
  · intro heq
    rw [if_neg (by omega)]

theorem C9_witness :
    decode_universal_notification
      (List.replicate 16 255 ++ [0, 99, 3, 6, 2]) = .error .Truncated ∧
    decode_universal_notification
      (List.replicate 16 255 ++ [0, 22, 3, 6, 2, 0]) =
      .ok ⟨(List.replicate 16 (255 : Nat) ++ [0, 22, 3, 6, 2, 0]).getD 19 0,
        (List.replicate 16 (255 : Nat) ++ [0, 22, 3, 6, 2, 0]).getD 20 0,
        (List.replicate 16 (255 : Nat) ++ [0, 22, 3, 6, 2, 0]).length - 21⟩ :=
  ⟨(C9_universal_data_length (List.replicate 16 255 ++ [0, 99, 3, 6, 2])
      (by decide) (by decide) (by decide)).1 (by decide),
   (C9_universal_data_length (List.replicate 16 255 ++ [0, 22, 3, 6, 2, 0])
      (by decide) (by decide) (by decide)).2 (by decide)⟩

end ChatBgp
